import Mathlib

/-!
Verification of the state/persistence core of `ssr_local_storage_todo`
(`src/app.rs`), a Leptos single-page todo application.  The data model
(`Bucket`, `Todo`, `AppState`), the mutation closures
(`set_uncommitted_todo`, `on_click`, `mark_as_todo`, `mark_as_done`), the
projections (`todo_list`, `done_list`) and the persistence bridge
(`load_data`, `save_to_local_storage`) are embedded shallowly.

Two modelling notes:

* `serde_json` is an external dependency; its text-level printer/parser is
  not part of this repository.  Serialization is therefore modelled at the
  JSON-value level: a `Json` inductive stands for `serde_json::Value`, and
  the derived `Serialize`/`Deserialize` impls of `AppState` are rendered as
  `AppState.toJson` / `AppState.fromJson`, following the struct and enum
  declarations in `src/app.rs` and the wire format documented in the spec
  (`{ "uncommitted_todo": <string>, "todos": [ { "id": <uint32>,
  "text": <string>, "bucket": "Todo" | "Done" }, ... ] }`).  A stored
  string is represented by the JSON value it parses to (`Option Json`,
  `none` for text that is not valid JSON).

* In `on_click` the Rust source assigns `id: state.todos.len() as u32`.
  The event handlers run on the `wasm32` target, where `usize` is 32 bits,
  so the `as u32` cast is the identity on every representable vector
  length; the id is modelled as the list length directly.
-/

namespace SsrTodo

/-- The `Bucket` enum from `src/app.rs`: the two-valued classification. -/
inductive Bucket where
  | Todo : Bucket
  | Done : Bucket
deriving DecidableEq, Repr

/-- The `Todo` struct from `src/app.rs`: `id: u32`, `text: String`, `bucket: Bucket`.
The `u32` id is modelled as a `Nat`; the wire format bounds it by `2^32`. -/
structure Todo where
  id : Nat
  text : String
  bucket : Bucket
deriving DecidableEq, Repr

/-- The `AppState` struct from `src/app.rs`. -/
structure AppState where
  uncommitted_todo : String
  todos : List Todo
deriving DecidableEq, Repr

/-- The constant `STORAGE_KEY = "app-state"` from `src/app.rs`. -/
def STORAGE_KEY : String := "app-state"

/-- The `impl Default for AppState` from `src/app.rs`. -/
def AppState.default : AppState :=
  { uncommitted_todo := "", todos := [] }

/-- JSON values, standing for `serde_json::Value`.  Numbers are modelled as
integers, which covers every number the wire format of this application uses
(`id` is a `u32`). -/
inductive Json where
  | null : Json
  | bool (b : Bool) : Json
  | num (n : Int) : Json
  | str (s : String) : Json
  | arr (elems : List Json) : Json
  | obj (fields : List (String × Json)) : Json

/-- Modelled from the spec: the derived `Serialize` of `Bucket` writes a
unit enum variant as its name, `"Todo"` or `"Done"`. -/
def Bucket.toJson : Bucket → Json
  | .Todo => .str "Todo"
  | .Done => .str "Done"

/-- Modelled from the spec: the derived `Serialize` of the `Todo` struct
writes an object with fields `id`, `text`, `bucket` in declaration order. -/
def Todo.toJson (t : Todo) : Json :=
  .obj [("id", .num (t.id : Int)), ("text", .str t.text), ("bucket", t.bucket.toJson)]

/-- Modelled from the spec: the derived `Serialize` of the `AppState` struct
writes an object with fields `uncommitted_todo`, `todos` in declaration order. -/
def AppState.toJson (s : AppState) : Json :=
  .obj [("uncommitted_todo", .str s.uncommitted_todo),
        ("todos", .arr (s.todos.map Todo.toJson))]

/-- Modelled from the spec: the derived `Deserialize` of `Bucket` accepts
exactly the strings `"Todo"` and `"Done"`. -/
def Bucket.fromJson : Json → Option Bucket
  | .str s =>
      if s = "Todo" then some .Todo
      else if s = "Done" then some .Done
      else none
  | _ => none

/-- Modelled from the spec: the derived `Deserialize` of `Todo` accepts an
object with fields `id` (a `u32`, i.e. an integer in `[0, 2^32)`), `text`
(a string) and `bucket` (a `Bucket` value), in declaration order. -/
def Todo.fromJson : Json → Option Todo
  | .obj [(k1, .num n), (k2, .str t), (k3, b)] =>
      if k1 = "id" ∧ k2 = "text" ∧ k3 = "bucket" ∧ 0 ≤ n ∧ n < 2 ^ 32 then
        (Bucket.fromJson b).map (fun bk => { id := n.toNat, text := t, bucket := bk })
      else
        none
  | _ => none

/-- Modelled from the spec: deserialization of a `Vec<Todo>` decodes each
element in order and fails if any element fails. -/
def todosFromJson : List Json → Option (List Todo)
  | [] => some []
  | j :: js =>
      (Todo.fromJson j).bind fun t =>
        (todosFromJson js).map fun ts => t :: ts

/-- Modelled from the spec: the derived `Deserialize` of `AppState` accepts
an object with fields `uncommitted_todo` (a string) and `todos` (an array of
`Todo` values). -/
def AppState.fromJson : Json → Option AppState
  | .obj [(k1, .str u), (k2, .arr js)] =>
      if k1 = "uncommitted_todo" ∧ k2 = "todos" then
        (todosFromJson js).map fun ts => { uncommitted_todo := u, todos := ts }
      else
        none
  | _ => none

/-! ## State-store mutation operations (`src/app.rs`) -/

/-- The write half of the `create_slice` for `uncommitted_todo`
(`set_uncommitted_todo` in `src/app.rs`): replaces the scratch input
unconditionally. -/
def set_uncommitted_todo (state : AppState) (new_value : String) : AppState :=
  { state with uncommitted_todo := new_value }

/-- The `on_click` closure in `src/app.rs`: pushes a new `Todo` with
`id = state.todos.len()` (see the header note on the `as u32` cast),
the input value as text, and bucket `Todo`. -/
def on_click (state : AppState) (value : String) : AppState :=
  { state with
      todos := state.todos ++
        [{ id := state.todos.length, text := value, bucket := Bucket.Todo }] }

/-- The scan `state.todos.iter_mut().find(|todo| todo.id == index)` followed by a
bucket assignment: rewrites the bucket of the first item whose id matches,
and leaves the list unchanged when none matches.  Common body of
`mark_as_todo` and `mark_as_done`, which differ only in the bucket written. -/
def setBucketFirst : List Todo → Nat → Bucket → List Todo
  | [], _, _ => []
  | t :: ts, index, b =>
      if t.id = index then { t with bucket := b } :: ts
      else t :: setBucketFirst ts index b

/-- The shared shape of `mark_as_todo` / `mark_as_done` in `src/app.rs`:
`setBucket(index, b)` of the spec. -/
def set_bucket (state : AppState) (index : Nat) (b : Bucket) : AppState :=
  { state with todos := setBucketFirst state.todos index b }

/-- The `mark_as_todo` closure in `src/app.rs`. -/
def mark_as_todo (state : AppState) (index : Nat) : AppState :=
  set_bucket state index Bucket.Todo

/-- The `mark_as_done` closure in `src/app.rs`. -/
def mark_as_done (state : AppState) (index : Nat) : AppState :=
  set_bucket state index Bucket.Done

/-- The `todo_list` projection in `src/app.rs`: linear filter of the items whose bucket is
`Todo`, in list order. -/
def todo_list (state : AppState) : List Todo :=
  state.todos.filter (fun t => t.bucket == Bucket.Todo)

/-- The `done_list` projection in `src/app.rs`: linear filter of the items whose bucket is
`Done`, in list order. -/
def done_list (state : AppState) : List Todo :=
  state.todos.filter (fun t => t.bucket == Bucket.Done)

/-! ## Persistence bridge (`src/app.rs`) -/

/-- A fallible JavaScript call, standing for `Result<α, JsValue>`. -/
inductive JsResult (α : Type) where
  | ok (val : α) : JsResult α
  | err : JsResult α

/-- The `Result::ok` combinator: drops the error into `none`. -/
def JsResult.toOption {α : Type} : JsResult α → Option α
  | .ok v => some v
  | .err => none

/-- A stored string, represented by the JSON value it parses to (`none`
when the text is not valid JSON); the text-level parse is `serde_json`
library code, external to this repository. -/
def StoredString : Type := Option Json

/-- A local-storage object: `get_item(key)` returns
`Result<Option<String>, JsValue>`. -/
def Storage : Type := String → JsResult (Option StoredString)

/-- Modelled from the spec: `serde_json::from_str::<AppState>` parses the
text (which the `StoredString` representation has already done) and then
decodes the resulting JSON value. -/
def from_str (s : StoredString) : Option AppState :=
  s.bind AppState.fromJson

/-- The `load_data` closure in `src/app.rs`, parametrised by the outcome of
`window().local_storage()`: reads `STORAGE_KEY`, deserializes, and falls
back to the default empty state on any failure. -/
def load_data (localStorage : JsResult (Option Storage)) : AppState :=
  let starting_todos :=
    (localStorage.toOption.join).bind fun storage =>
      ((storage STORAGE_KEY).toOption.join).bind fun value =>
        from_str value
  match starting_todos with
  | some todos => todos
  | none => { uncommitted_todo := "", todos := [] }

/-- What a call of `save_to_local_storage` did to the browser storage. -/
inductive SaveOutcome where
  | noStorage : SaveOutcome
  | written (key : String) (value : Json) : SaveOutcome
  | writeFailed (key : String) (value : Json) : SaveOutcome

/-- Modelled from the spec: `serde_json::to_string` on an `AppState` — the
derived serializer emits only strings, in-range integers, arrays and
string-keyed objects, so it cannot fail; the result is the wire-format
value. -/
def to_string_result (state : AppState) : Option Json :=
  some (AppState.toJson state)

/-- The `save_to_local_storage` closure in `src/app.rs`, parametrised by the outcome of
`window().local_storage()` and of `storage.set_item`.  Returns `none` when
the `.expect("couldn't serialize Todos")` panic fires, and otherwise the
storage outcome paired with the (untouched) in-memory state.  A failed
`set_item` is logged and swallowed. -/
def save_to_local_storage (localStorage : JsResult (Option Unit))
    (setItemOk : Bool) (state : AppState) : Option (SaveOutcome × AppState) :=
  match localStorage with
  | .ok (some _) =>
      match to_string_result state with
      | some json =>
          if setItemOk then some (.written STORAGE_KEY json, state)
          else some (.writeFailed STORAGE_KEY json, state)
      | none => none
  | .ok none => some (.noStorage, state)
  | .err => some (.noStorage, state)

/-! ## Session dynamics -/

/-- One user-driven mutation of the state store: the three operations the
view can trigger (`set_uncommitted_todo`, `on_click`, and
`mark_as_todo`/`mark_as_done`, i.e. `setBucket`). -/
inductive Step : AppState → AppState → Prop where
  | scratch (s : AppState) (v : String) : Step s (set_uncommitted_todo s v)
  | add (s : AppState) (v : String) : Step s (on_click s v)
  | toTodo (s : AppState) (i : Nat) : Step s (mark_as_todo s i)
  | toDone (s : AppState) (i : Nat) : Step s (mark_as_done s i)

/-- The states reachable from `s0` by a sequence of mutations. -/
def Reachable (s0 s : AppState) : Prop :=
  Relation.ReflTransGen Step s0 s

/-- Identifiers are positional: the item at position `i` carries id `i`.
This is the id-generation invariant of `on_click`. -/
def Positional (s : AppState) : Prop :=
  s.todos.map Todo.id = List.range s.todos.length

/-- Iterated `on_click` over a list of texts, front first. -/
def addItems (state : AppState) : List String → AppState
  | [] => state
  | v :: vs => addItems (on_click state v) vs

/-! ## The wire shape of the spec (§6) -/

/-- The `"Todo" | "Done"` alternative of the documented wire format. -/
def BucketShape (j : Json) : Prop :=
  j = .str "Todo" ∨ j = .str "Done"

/-- The `{ "id": <uint32>, "text": <string>, "bucket": "Todo" | "Done" }`
object of the documented wire format. -/
def ItemShape (j : Json) : Prop :=
  ∃ n t b, j = .obj [("id", .num n), ("text", .str t), ("bucket", b)] ∧
    0 ≤ n ∧ n < 2 ^ 32 ∧ BucketShape b

/-- The `{ "uncommitted_todo": <string>, "todos": [ ... ] }` object of the
documented wire format. -/
def StateShape (j : Json) : Prop :=
  ∃ u js, j = .obj [("uncommitted_todo", .str u), ("todos", .arr js)] ∧
    ∀ x ∈ js, ItemShape x

/-! ## Concrete example values -/

/-- Concrete round trip: a two-item state with one item in each bucket. -/
def exState : AppState :=
  { uncommitted_todo := "milk",
    todos := [{ id := 0, text := "buy milk", bucket := Bucket.Todo },
              { id := 1, text := "call mom", bucket := Bucket.Done }] }

/-- Concrete three-item store with identifiers 0, 1, 2, all in `Todo`. -/
def exStore3 : AppState :=
  { uncommitted_todo := "",
    todos := [{ id := 0, text := "a", bucket := Bucket.Todo },
              { id := 1, text := "b", bucket := Bucket.Todo },
              { id := 2, text := "c", bucket := Bucket.Todo }] }

/-- A syntactically well-formed stored state whose two items share id 0:
valid JSON of the documented shape, so `load_data` installs it. -/
def dupJson : Json :=
  .obj [("uncommitted_todo", .str ""),
        ("todos", .arr
          [.obj [("id", .num 0), ("text", .str "a"), ("bucket", .str "Todo")],
           .obj [("id", .num 0), ("text", .str "b"), ("bucket", .str "Todo")]])]

/-- A storage whose `get_item` answers `dupJson` under every key. -/
def dupStorage : Storage := fun _ => .ok (some (some dupJson))

/-- A browser environment exposing `dupStorage`. -/
def dupEnv : JsResult (Option Storage) := .ok (some dupStorage)

/-! ## Round-trip lemmas -/

theorem bucketFromJson_toJson (b : Bucket) : Bucket.fromJson (Bucket.toJson b) = some b := by
  cases b <;> rfl

theorem todoFromJson_toJson (t : Todo) (h : t.id < 2 ^ 32) :
    Todo.fromJson (Todo.toJson t) = some t := by
  have h0 : (0 : Int) ≤ (t.id : Int) := Int.natCast_nonneg t.id
  have h1 : (t.id : Int) < 2 ^ 32 := by exact_mod_cast h
  simp only [Todo.toJson, Todo.fromJson]
  rw [if_pos]
  · rw [bucketFromJson_toJson, Option.map_some', Int.toNat_natCast]
  · exact ⟨trivial, trivial, trivial, h0, h1⟩

theorem todosFromJson_map_toJson (ts : List Todo) (h : ∀ t ∈ ts, t.id < 2 ^ 32) :
    todosFromJson (ts.map Todo.toJson) = some ts := by
  induction ts with
  | nil => rfl
  | cons t ts ih =>
      have ht : t.id < 2 ^ 32 := h t (List.mem_cons_self t ts)
      have hts : ∀ x ∈ ts, x.id < 2 ^ 32 := fun x hx => h x (List.mem_cons_of_mem t hx)
      simp [todosFromJson, todoFromJson_toJson t ht, ih hts]

/-- C1: deserializing the JSON serialization of any valid `AppState`
(every item id a `u32`) yields the original state:
`fromJson (toJson s) = some s`. -/
theorem claim_C1_roundtrip (s : AppState) (h : ∀ t ∈ s.todos, t.id < 2 ^ 32) :
    AppState.fromJson (AppState.toJson s) = some s := by
  simp only [AppState.toJson, AppState.fromJson]
  rw [if_pos]
  · rw [todosFromJson_map_toJson s.todos h, Option.map_some']
  · exact ⟨trivial, trivial⟩

theorem claim_C1_roundtrip_witness :
    (∀ t ∈ exState.todos, t.id < 2 ^ 32) ∧
      AppState.fromJson (AppState.toJson exState) = some exState :=
  ⟨by decide, claim_C1_roundtrip exState (by decide)⟩

/-- C8: `on_click` never modifies the scratch input: `uncommitted_todo`
after the call equals its value before the call. -/
theorem claim_C8_scratch_untouched (state : AppState) (value : String) :
    (on_click state value).uncommitted_todo = state.uncommitted_todo := rfl

/-! ## Fallback behaviour of the persistence bridge -/

/-- C2: `load_data` never raises; whenever the storage object is
unavailable, `get_item` fails or finds no value under the key, or the
stored string fails to deserialize, it returns the default empty state. -/
theorem claim_C2_load_default (ls : JsResult (Option Storage))
    (h : ls = JsResult.err ∨ ls = JsResult.ok none ∨
      ∃ st : Storage, ls = JsResult.ok (some st) ∧
        (st STORAGE_KEY = JsResult.err ∨ st STORAGE_KEY = JsResult.ok none ∨
         ∃ v : StoredString, st STORAGE_KEY = JsResult.ok (some v) ∧ from_str v = none)) :
    load_data ls = AppState.default := by
  rcases h with rfl | rfl | ⟨st, rfl, hst⟩
  · rfl
  · rfl
  · rcases hst with h1 | h1 | ⟨v, h1, h2⟩
    · simp [load_data, JsResult.toOption, h1, AppState.default]
    · simp [load_data, JsResult.toOption, h1, AppState.default]
    · simp [load_data, JsResult.toOption, h1, h2, AppState.default]

theorem claim_C2_load_default_witness :
    load_data (JsResult.err : JsResult (Option Storage)) = AppState.default :=
  claim_C2_load_default JsResult.err (Or.inl rfl)

/-! ## `setBucket` -/

theorem setBucketFirst_eq_self (ts : List Todo) (index : Nat) (b : Bucket)
    (h : ∀ t ∈ ts, t.id ≠ index) : setBucketFirst ts index b = ts := by
  induction ts with
  | nil => rfl
  | cons t ts ih =>
      rw [setBucketFirst, if_neg (h t (List.mem_cons_self t ts)),
        ih (fun x hx => h x (List.mem_cons_of_mem t hx))]

theorem setBucketFirst_eq_map (ts : List Todo) (index : Nat) (b : Bucket)
    (h : (ts.map Todo.id).Nodup) :
    setBucketFirst ts index b =
      ts.map (fun t => if t.id = index then { t with bucket := b } else t) := by
  induction ts with
  | nil => rfl
  | cons t ts ih =>
      rw [List.map_cons, List.nodup_cons] at h
      obtain ⟨hni, h'⟩ := h
      by_cases hid : t.id = index
      · rw [setBucketFirst, if_pos hid, List.map_cons, if_pos hid]
        have hrest : ∀ x ∈ ts, (if x.id = index then { x with bucket := b } else x) = x := by
          intro x hx
          refine if_neg ?_
          intro he
          exact hni (by rw [hid, ← he]; exact List.mem_map_of_mem Todo.id hx)
        rw [List.map_congr_left hrest]
        simp
      · rw [setBucketFirst, if_neg hid, List.map_cons, if_neg hid, ih h']

/-- C4: on a store with pairwise-distinct identifiers containing the target
identifier, `setBucket` rewrites only the matching item's bucket — every
other item, the matching item's id and text, and the scratch input are
unchanged — and the two projections are the linear bucket filters of the
item list, in list order. -/
theorem claim_C4_set_bucket (state : AppState) (index : Nat) (b : Bucket)
    (hnd : (state.todos.map Todo.id).Nodup)
    (_hmem : ∃ t ∈ state.todos, t.id = index) :
    (set_bucket state index b).uncommitted_todo = state.uncommitted_todo ∧
    (set_bucket state index b).todos =
      state.todos.map (fun t => if t.id = index then { t with bucket := b } else t) ∧
    todo_list (set_bucket state index b) =
      (set_bucket state index b).todos.filter (fun t => t.bucket == Bucket.Todo) ∧
    done_list (set_bucket state index b) =
      (set_bucket state index b).todos.filter (fun t => t.bucket == Bucket.Done) :=
  ⟨rfl, by rw [set_bucket, setBucketFirst_eq_map state.todos index b hnd], rfl, rfl⟩

theorem claim_C4_set_bucket_witness :
    (exStore3.todos.map Todo.id).Nodup ∧
    (set_bucket exStore3 1 Bucket.Done).todos =
      exStore3.todos.map
        (fun t => if t.id = 1 then { t with bucket := Bucket.Done } else t) ∧
    todo_list (set_bucket exStore3 1 Bucket.Done) =
      [{ id := 0, text := "a", bucket := Bucket.Todo },
       { id := 2, text := "c", bucket := Bucket.Todo }] ∧
    done_list (set_bucket exStore3 1 Bucket.Done) =
      [{ id := 1, text := "b", bucket := Bucket.Done }] :=
  ⟨by decide,
   (claim_C4_set_bucket exStore3 1 Bucket.Done (by decide) (by decide)).2.1,
   by decide, by decide⟩

/-- C7: `setBucket` with an identifier no item carries is a silent no-op:
both `mark_as_todo` and `mark_as_done` return the store unchanged. -/
theorem claim_C7_set_bucket_noop (state : AppState) (index : Nat)
    (h : ∀ t ∈ state.todos, t.id ≠ index) :
    mark_as_todo state index = state ∧ mark_as_done state index = state := by
  constructor <;>
    simp [mark_as_todo, mark_as_done, set_bucket,
      setBucketFirst_eq_self state.todos index _ h]

theorem claim_C7_set_bucket_noop_witness :
    (∀ t ∈ exStore3.todos, t.id ≠ 99) ∧
      (mark_as_todo exStore3 99 = exStore3 ∧ mark_as_done exStore3 99 = exStore3) :=
  ⟨by decide, claim_C7_set_bucket_noop exStore3 99 (by decide)⟩

/-! ## `save_to_local_storage` never panics -/

/-- C9: `save_to_local_storage` never raises: serialization always succeeds
(the `.expect` panic branch is unreachable), a failed or unavailable write
is swallowed, and the in-memory state is returned unchanged in every case. -/
theorem claim_C9_save_total (ls : JsResult (Option Unit)) (wr : Bool)
    (state : AppState) :
    to_string_result state = some (AppState.toJson state) ∧
      ∃ out : SaveOutcome, save_to_local_storage ls wr state = some (out, state) := by
  refine ⟨rfl, ?_⟩
  cases ls with
  | err => exact ⟨.noStorage, rfl⟩
  | ok o =>
      cases o with
      | none => exact ⟨.noStorage, rfl⟩
      | some u =>
          cases wr with
          | true => exact ⟨.written STORAGE_KEY (AppState.toJson state), rfl⟩
          | false => exact ⟨.writeFailed STORAGE_KEY (AppState.toJson state), rfl⟩

/-! ## Iterated `addItem` -/

theorem addItems_todos (vs : List String) :
    ∀ s : AppState,
      (addItems s vs).todos =
        s.todos ++ (List.enumFrom s.todos.length vs).map
          (fun p => { id := p.1, text := p.2, bucket := Bucket.Todo }) := by
  induction vs with
  | nil => intro s; simp [addItems]
  | cons v vs ih =>
      intro s
      rw [addItems, ih (on_click s v)]
      simp [on_click, List.enumFrom, List.append_assoc]

/-- C3: starting from the empty store, adding `n` texts in sequence yields
exactly `n` items in insertion order, the item at position `i` carrying
identifier `i`, text `tᵢ` and bucket `Todo`; in particular one
`addItem("buy milk")` yields the single item `(0, "buy milk", Todo)`. -/
theorem claim_C3_add_items (vs : List String) :
    (addItems AppState.default vs).todos.length = vs.length ∧
    (addItems AppState.default vs).todos =
      vs.enum.map (fun p => { id := p.1, text := p.2, bucket := Bucket.Todo }) ∧
    (addItems AppState.default ["buy milk"]).todos =
      [{ id := 0, text := "buy milk", bucket := Bucket.Todo }] := by
  refine ⟨?_, ?_, by decide⟩ <;>
    rw [addItems_todos vs AppState.default] <;>
    simp [AppState.default, List.enum]

/-! ## Identifier invariants of a session -/

theorem setBucketFirst_map_id (ts : List Todo) (index : Nat) (b : Bucket) :
    (setBucketFirst ts index b).map Todo.id = ts.map Todo.id := by
  induction ts with
  | nil => rfl
  | cons t ts ih =>
      by_cases hid : t.id = index
      · rw [setBucketFirst, if_pos hid]; rfl
      · rw [setBucketFirst, if_neg hid, List.map_cons, List.map_cons, ih]

theorem Positional.set_uncommitted (s : AppState) (v : String)
    (h : Positional s) : Positional (set_uncommitted_todo s v) := h

theorem Positional.on_click (s : AppState) (v : String)
    (h : Positional s) : Positional (SsrTodo.on_click s v) := by
  unfold Positional SsrTodo.on_click at *
  simp only [List.map_append, List.length_append, List.map_cons, List.map_nil,
    List.length_cons, List.length_nil, h, List.range_succ, Nat.add_zero]

theorem Positional.set_bucket (s : AppState) (index : Nat) (b : Bucket)
    (h : Positional s) : Positional (SsrTodo.set_bucket s index b) := by
  unfold Positional SsrTodo.set_bucket at *
  simp only [setBucketFirst_map_id, h]
  have hlen : (setBucketFirst s.todos index b).length = s.todos.length := by
    have := congrArg List.length (setBucketFirst_map_id s.todos index b)
    simpa using this
  rw [hlen]

theorem step_preserves_positional {s s' : AppState} (hstep : Step s s')
    (h : Positional s) : Positional s' := by
  cases hstep with
  | scratch v => exact h.set_uncommitted s v
  | add v => exact h.on_click s v
  | toTodo i => exact h.set_bucket s i Bucket.Todo
  | toDone i => exact h.set_bucket s i Bucket.Done

theorem reachable_positional {s0 s : AppState} (hr : Reachable s0 s)
    (h : Positional s0) : Positional s := by
  induction hr with
  | refl => exact h
  | tail _ hstep ih => exact step_preserves_positional hstep ih

/-- C10: in every state reachable from the default empty state via the
three mutation operations, the item at position `i` carries identifier
exactly `i`: the identifier list is `0, 1, ..., len-1`. -/
theorem claim_C10_positional (s : AppState)
    (h : Reachable AppState.default s) :
    s.todos.map Todo.id = List.range s.todos.length :=
  reachable_positional h rfl

theorem claim_C10_positional_witness :
    (on_click AppState.default "a").todos.map Todo.id =
      List.range (on_click AppState.default "a").todos.length :=
  claim_C10_positional (on_click AppState.default "a")
    (Relation.ReflTransGen.single (Step.add AppState.default "a"))

/-! ## Identifier uniqueness across a whole session -/

/-- C5 as stated is false: `load()` deserializes any value of the wire
shape, including one whose items share an identifier, and the installed
state is itself reachable (empty operation sequence), with ids `[0, 0]`. -/
theorem claim_C5_counterexample :
    Reachable (load_data dupEnv) (load_data dupEnv) ∧
      ¬ ((load_data dupEnv).todos.map Todo.id).Nodup :=
  ⟨Relation.ReflTransGen.refl, by decide⟩

/-- C5 (amended): provided the state installed by `load()` has positional
identifiers — item `i` carries id `i`, true of the default fallback state
and of every state the application itself constructs — the identifiers of
every state reachable during the session are pairwise distinct. -/
theorem claim_C5_amended (env : JsResult (Option Storage)) (s : AppState)
    (hpos : Positional (load_data env))
    (hr : Reachable (load_data env) s) :
    (s.todos.map Todo.id).Nodup := by
  rw [reachable_positional hr hpos]
  exact List.nodup_range _

theorem claim_C5_amended_witness :
    ((on_click (load_data (JsResult.err : JsResult (Option Storage))) "a").todos.map
        Todo.id).Nodup :=
  claim_C5_amended JsResult.err _ rfl
    (Relation.ReflTransGen.single (Step.add _ "a"))

/-! ## The wire format is exactly the documented shape -/

theorem bucketFromJson_isSome_iff (j : Json) :
    (Bucket.fromJson j).isSome = true ↔ BucketShape j := by
  constructor
  · intro h
    unfold Bucket.fromJson at h
    split at h
    next s =>
      split_ifs at h with h1 h2
      · exact Or.inl (by rw [h1])
      · exact Or.inr (by rw [h2])
      · simp at h
    next => simp at h
  · rintro (rfl | rfl) <;> rfl

theorem todoFromJson_isSome_iff (j : Json) :
    (Todo.fromJson j).isSome = true ↔ ItemShape j := by
  constructor
  · intro h
    unfold Todo.fromJson at h
    split at h
    next k1 n k2 t k3 b =>
      split_ifs at h with hc
      · obtain ⟨h1, h2, h3, h4, h5⟩ := hc
        refine ⟨n, t, b, by rw [h1, h2, h3], h4, h5, ?_⟩
        cases hb : Bucket.fromJson b with
        | none => rw [hb] at h; simp at h
        | some bk => exact (bucketFromJson_isSome_iff b).mp (by rw [hb]; rfl)
      · simp at h
    next => simp at h
  · rintro ⟨n, t, b, rfl, h0, hlt, hb⟩
    rcases hb with rfl | rfl <;> simp [Todo.fromJson, h0, hlt, Bucket.fromJson] <;> omega

theorem todosFromJson_isSome_iff (js : List Json) :
    (todosFromJson js).isSome = true ↔ ∀ x ∈ js, (Todo.fromJson x).isSome = true := by
  induction js with
  | nil => simp [todosFromJson]
  | cons j js ih =>
      constructor
      · intro h
        rw [todosFromJson] at h
        cases hj : Todo.fromJson j with
        | none => rw [hj] at h; simp at h
        | some t =>
            rw [hj] at h
            cases hts : todosFromJson js with
            | none => rw [hts] at h; simp at h
            | some ts =>
                intro x hx
                rcases List.mem_cons.mp hx with rfl | hx
                · rw [hj]; rfl
                · exact ih.mp (by rw [hts]; rfl) x hx
      · intro h
        rw [todosFromJson]
        obtain ⟨t, ht⟩ :=
          Option.isSome_iff_exists.mp (h j (List.mem_cons_self j js))
        obtain ⟨ts, hts⟩ :=
          Option.isSome_iff_exists.mp
            (ih.mpr fun x hx => h x (List.mem_cons_of_mem j hx))
        rw [ht, hts]; rfl

theorem appStateFromJson_isSome_iff (j : Json) :
    (AppState.fromJson j).isSome = true ↔ StateShape j := by
  constructor
  · intro h
    unfold AppState.fromJson at h
    split at h
    next k1 u k2 js =>
      split_ifs at h with hc
      · obtain ⟨h1, h2⟩ := hc
        refine ⟨u, js, by rw [h1, h2], ?_⟩
        cases hts : todosFromJson js with
        | none => rw [hts] at h; simp at h
        | some ts =>
            exact fun x hx =>
              (todoFromJson_isSome_iff x).mp
                ((todosFromJson_isSome_iff js).mp (by rw [hts]; rfl) x hx)
      · simp at h
    next => simp at h
  · rintro ⟨u, js, rfl, hitems⟩
    obtain ⟨ts, hts⟩ :=
      Option.isSome_iff_exists.mp
        ((todosFromJson_isSome_iff js).mpr fun x hx =>
          (todoFromJson_isSome_iff x).mpr (hitems x hx))
    simp [AppState.fromJson, hts]

theorem ItemShape_toJson (t : Todo) (h : t.id < 2 ^ 32) :
    ItemShape (Todo.toJson t) :=
  ⟨(t.id : Int), t.text, t.bucket.toJson, rfl, Int.natCast_nonneg _,
    by exact_mod_cast h,
    by cases t.bucket with
       | Todo => exact Or.inl rfl
       | Done => exact Or.inr rfl⟩

/-- C6: the fixed storage key is `"app-state"`; serializing any
`AppState` (item ids being `u32`) produces exactly the documented wire
shape, field names and two-valued bucket enumeration included; and
deserialization succeeds on exactly the values of that shape. -/
theorem claim_C6_wire_format :
    STORAGE_KEY = "app-state" ∧
    (∀ s : AppState, (∀ t ∈ s.todos, t.id < 2 ^ 32) →
      StateShape (AppState.toJson s)) ∧
    (∀ j : Json, (AppState.fromJson j).isSome = true ↔ StateShape j) := by
  refine ⟨rfl, ?_, appStateFromJson_isSome_iff⟩
  intro s hs
  refine ⟨s.uncommitted_todo, s.todos.map Todo.toJson, rfl, ?_⟩
  intro x hx
  obtain ⟨t, ht, rfl⟩ := List.mem_map.mp hx
  exact ItemShape_toJson t (hs t ht)

theorem claim_C6_wire_format_witness : StateShape (AppState.toJson exState) :=
  claim_C6_wire_format.2.1 exState (by decide)

end SsrTodo
